import Mathlib

/-!
Shallow embedding of `src/gamemovement.cpp`: a terminal animation with a
movable heart entity (`Heart`), a bordered rectangular region (`BattleBox`),
and a frame loop (`main`) that drains keyboard input, updates the entity,
clamps its position to the region interior, and redraws.

C++ `float` values are modelled as real numbers, `int` values as integers.
Terminal output is modelled where claims need it: `BattleBox::draw` is
modelled by the list of (row, column) cells it writes, and `Heart::draw` by
its effect on the last-drawn-cell state.  Color attributes, the glyph
constant, `refresh`, and `usleep` have no effect on the modelled state and
are omitted.
-/

namespace GameMovement

/-- State of the `Heart` class (gamemovement.cpp lines 6-14): float position,
last drawn cell, normalized direction vector, base speed, aspect ratio and
the moving flag.  The constant glyph `symbol` is omitted. -/
structure Heart where
  x : ℝ
  y : ℝ
  lastDrawnX : ℤ
  lastDrawnY : ℤ
  directionX : ℝ
  directionY : ℝ
  baseSpeed : ℝ
  aspectRatio : ℝ
  moving : Bool

/-- `Heart::Heart(int startX, int startY)` (lines 17-22). -/
noncomputable def Heart.init (startX startY : ℤ) : Heart :=
  { x := (startX : ℝ), y := (startY : ℝ)
    lastDrawnX := startX, lastDrawnY := startY
    directionX := 0, directionY := 0
    baseSpeed := 0.3, aspectRatio := 2
    moving := false }

/-- `Heart::update` (lines 24-32): while moving, advance the position by the
direction scaled by the base speed, with the horizontal component further
scaled by the aspect ratio. -/
noncomputable def Heart.update (h : Heart) : Heart :=
  if h.moving then
    { h with x := h.x + h.directionX * h.baseSpeed * h.aspectRatio
             y := h.y + h.directionY * h.baseSpeed }
  else h

/-- `Heart::setDirection` (lines 34-43): ignore the zero vector, otherwise
normalize `(dx, dy)` to unit length and start moving. -/
noncomputable def Heart.setDirection (h : Heart) (dx dy : ℝ) : Heart :=
  if dx ≠ 0 ∨ dy ≠ 0 then
    let length := Real.sqrt (dx * dx + dy * dy)
    { h with directionX := dx / length
             directionY := dy / length
             moving := true }
  else h

/-- `Heart::setAspectRatio` (lines 45-47). -/
def Heart.setAspectRatio (h : Heart) (ratio : ℝ) : Heart :=
  { h with aspectRatio := ratio }

/-- `Heart::setSpeed` (lines 49-51). -/
def Heart.setSpeed (h : Heart) (speed : ℝ) : Heart :=
  { h with baseSpeed := speed }

/-- `Heart::stop` (lines 53-55). -/
def Heart.stop (h : Heart) : Heart :=
  { h with moving := false }

/-- `Heart::start` (lines 57-59). -/
def Heart.start (h : Heart) : Heart :=
  { h with moving := true }

/-- `Heart::isMoving` (lines 61-63). -/
def Heart.isMoving (h : Heart) : Bool :=
  h.moving

/-- `Heart::setPosition` (lines 65-68). -/
def Heart.setPosition (h : Heart) (newX newY : ℝ) : Heart :=
  { h with x := newX, y := newY }

/-- `Heart::draw` (lines 75-98), restricted to its effect on the modelled
state: the last drawn cell becomes the rounded current position (when the
rounded position equals the last drawn cell the glyph is redrawn in place
and the state is unchanged). -/
noncomputable def Heart.draw (h : Heart) : Heart :=
  let currentX : ℤ := round h.x
  let currentY : ℤ := round h.y
  if currentX ≠ h.lastDrawnX ∨ currentY ≠ h.lastDrawnY then
    { h with lastDrawnX := currentX, lastDrawnY := currentY }
  else h

/-- State of the `BattleBox` class (lines 108-112): top-left corner,
dimensions and the dirty flag. -/
structure BattleBox where
  x : ℤ
  y : ℤ
  width : ℤ
  height : ℤ
  needsRedraw : Bool

/-- `BattleBox::BattleBox` (lines 115-116). -/
def BattleBox.init (startX startY w h : ℤ) : BattleBox :=
  { x := startX, y := startY, width := w, height := h, needsRedraw := true }

/-- The integers `lo, lo+1, …, hi` in order (empty when `hi < lo`), modelling
a C `for (int i = lo; i <= hi; i++)` loop counter. -/
def intRange (lo hi : ℤ) : List ℤ :=
  (List.range (hi + 1 - lo).toNat).map (fun i : ℕ => lo + (i : ℤ))

/-- The (row, column) cells written by the body of `BattleBox::draw`
(lines 124-136): the top/bottom loop writes rows `y` and `y + height` for
columns `x + i`, `i = -1 … width+1`; the side loop writes columns `x`,
`x + width`, `x - 1` and `x + 1 + width` for rows `y + i`, `i = 0 … height`. -/
def BattleBox.drawCells (b : BattleBox) : List (ℤ × ℤ) :=
  ((intRange (-1) (b.width + 1)).flatMap (fun i =>
    [(b.y, b.x + i), (b.y + b.height, b.x + i)])) ++
  ((intRange 0 b.height).flatMap (fun i =>
    [(b.y + i, b.x), (b.y + i, b.x + b.width), (b.y + i, b.x - 1),
     (b.y + i, b.x + 1 + b.width)]))

/-- `BattleBox::draw` (lines 118-142): a no-op when the dirty flag is clear;
otherwise it writes the border cells and clears the dirty flag.  The result
pairs the new box state with the list of cells written. -/
def BattleBox.draw (b : BattleBox) : BattleBox × List (ℤ × ℤ) :=
  if !b.needsRedraw then (b, [])
  else ({ b with needsRedraw := false }, b.drawCells)

/-! ## The frame loop of `main` (lines 154-281) -/

/-- The input alphabet of the `getch` dispatch in `main` (lines 199-240):
one constructor per key the dispatch distinguishes, with `other` standing
for every key that falls through all branches (and for no pending key the
drain simply ends). -/
inductive Key where
  | q | upperQ | space | plus | eq | minus | underscore
  | lbrack | rbrack | up | down | left | right | other
  deriving DecidableEq

/-- Whether a key is one of the two quit keys, on which the input drain
executes `break` (lines 201-203). -/
def Key.isQuitKey : Key → Bool
  | .q | .upperQ => true
  | _ => false

/-- Whether a key is one of the aspect-ratio / speed adjustment keys
(`+`, `=`, `-`, `_`, `[`, `]`, lines 211-230). -/
def Key.isParamKey : Key → Bool
  | .plus | .eq | .minus | .underscore | .lbrack | .rbrack => true
  | _ => false

/-- Whether a key is one that can change the motion state (Space or an
arrow key, lines 204-239). -/
def Key.isMotionKey : Key → Bool
  | .space | .up | .down | .left | .right => true
  | _ => false

/-- The loop-local state of `main`: the `running` flag and the heart.  The
battle box is constant during the loop and passed separately. -/
structure LoopState where
  running : Bool
  heart : Heart

/-- The body of the input dispatch in `main` (lines 199-240) applied to one
key: `q`/`Q` clears `running`; Space toggles motion; `+`/`=` and `-`/`_`
step the aspect ratio clamped to `[1.0, 5.0]`; `[` and `]` step the base
speed clamped to `[0.05, 1.0]`; arrow keys set a cardinal direction. -/
noncomputable def handleKey (s : LoopState) (ch : Key) : LoopState :=
  match ch with
  | .q | .upperQ => { s with running := false }
  | .space =>
      if s.heart.isMoving then { s with heart := s.heart.stop }
      else { s with heart := s.heart.start }
  | .plus | .eq =>
      let aspectRatio := s.heart.aspectRatio + 0.2
      let aspectRatio := if aspectRatio > 5 then 5 else aspectRatio
      { s with heart := s.heart.setAspectRatio aspectRatio }
  | .minus | .underscore =>
      let aspectRatio := s.heart.aspectRatio - 0.2
      let aspectRatio := if aspectRatio < 1 then 1 else aspectRatio
      { s with heart := s.heart.setAspectRatio aspectRatio }
  | .lbrack =>
      let speed := s.heart.baseSpeed - 0.05
      let speed := if speed < 0.05 then 0.05 else speed
      { s with heart := s.heart.setSpeed speed }
  | .rbrack =>
      let speed := s.heart.baseSpeed + 0.05
      let speed := if speed > 1 then 1 else speed
      { s with heart := s.heart.setSpeed speed }
  | .up => { s with heart := s.heart.setDirection 0 (-1) }
  | .down => { s with heart := s.heart.setDirection 0 1 }
  | .left => { s with heart := s.heart.setDirection (-1) 0 }
  | .right => { s with heart := s.heart.setDirection 1 0 }
  | .other => s

/-- The input drain `while ((ch = getch()) != ERR)` (lines 199-240) over the
list of pending keys: each key is dispatched in order; a quit key executes
`break`, leaving the remaining pending keys unprocessed. -/
noncomputable def processInput (s : LoopState) : List Key → LoopState
  | [] => s
  | ch :: rest =>
      let s' := handleKey s ch
      if ch.isQuitKey then s' else processInput s' rest

/-- The boundary-checking block of `main` (lines 247-268).  `heartX` and
`heartY` are read once, before any constraining, and each of the four
`if` statements calls `setPosition` with the stale value of the other
coordinate — exactly as in the source. -/
noncomputable def clampStep (battleBox : BattleBox) (heart : Heart) : Heart :=
  let heartX := heart.x
  let heartY := heart.y
  let h1 := if heartX < (battleBox.x : ℝ) + 1 then
              heart.setPosition ((battleBox.x : ℝ) + 1) heartY
            else heart
  let h2 := if heartX > (battleBox.x : ℝ) + (battleBox.width : ℝ) - 1 then
              h1.setPosition ((battleBox.x : ℝ) + (battleBox.width : ℝ) - 1) heartY
            else h1
  let h3 := if heartY < (battleBox.y : ℝ) + 1 then
              h2.setPosition heartX ((battleBox.y : ℝ) + 1)
            else h2
  let h4 := if heartY > (battleBox.y : ℝ) + (battleBox.height : ℝ) - 1 then
              h3.setPosition heartX ((battleBox.y : ℝ) + (battleBox.height : ℝ) - 1)
            else h3
  h4

/-- One iteration of the `while (running)` loop body (lines 194-276): drain
the pending input, then — unconditionally — update the heart, clamp it to
the box, and draw it.  (`refresh` and `usleep` do not change the modelled
state.) -/
noncomputable def iteration (battleBox : BattleBox) (s : LoopState)
    (input : List Key) : LoopState :=
  let s1 := processInput s input
  let h1 := s1.heart.update
  let h2 := clampStep battleBox h1
  let h3 := h2.draw
  { s1 with heart := h3 }

/-- The `while (running)` loop (lines 194-276), driven by the list of
pending-input batches observed at the top of each frame: the loop condition
is tested before each iteration. -/
noncomputable def runFrames (battleBox : BattleBox) (s : LoopState) :
    List (List Key) → LoopState
  | [] => s
  | input :: rest =>
      if s.running then runFrames battleBox (iteration battleBox s input) rest
      else s

/-- The battle box constructed in `main` (line 177). -/
def initialBox (maxX maxY : ℤ) : BattleBox :=
  BattleBox.init (maxX / 2 - 20) (maxY / 2 - 8) 40 16

/-- The heart constructed in `main` (line 178). -/
noncomputable def initialHeart (maxX maxY : ℤ) : Heart :=
  Heart.init (maxX / 2) (maxY / 2)

/-- The loop state on entry to the game loop (line 193): `running = true`
with the freshly constructed heart. -/
noncomputable def initialState (maxX maxY : ℤ) : LoopState :=
  { running := true, heart := initialHeart maxX maxY }

/-! ## Basic lemmas about the embedded operations -/

theorem mem_intRange {lo hi c : ℤ} : c ∈ intRange lo hi ↔ lo ≤ c ∧ c ≤ hi := by
  constructor
  · intro hc
    obtain ⟨i, hi', hic⟩ := List.mem_map.mp hc
    have hilt := List.mem_range.mp hi'
    omega
  · intro hc
    exact List.mem_map.mpr ⟨(c - lo).toNat, List.mem_range.mpr (by omega), by omega⟩

@[simp] theorem Heart.update_directionX (h : Heart) :
    h.update.directionX = h.directionX := by
  unfold Heart.update; split_ifs <;> rfl

@[simp] theorem Heart.update_directionY (h : Heart) :
    h.update.directionY = h.directionY := by
  unfold Heart.update; split_ifs <;> rfl

@[simp] theorem Heart.update_baseSpeed (h : Heart) :
    h.update.baseSpeed = h.baseSpeed := by
  unfold Heart.update; split_ifs <;> rfl

@[simp] theorem Heart.update_aspectRatio (h : Heart) :
    h.update.aspectRatio = h.aspectRatio := by
  unfold Heart.update; split_ifs <;> rfl

@[simp] theorem Heart.update_moving (h : Heart) :
    h.update.moving = h.moving := by
  unfold Heart.update; split_ifs <;> rfl

theorem Heart.update_of_moving (h : Heart) (hm : h.moving = true) :
    h.update = { h with x := h.x + h.directionX * h.baseSpeed * h.aspectRatio
                        y := h.y + h.directionY * h.baseSpeed } := by
  simp [Heart.update, hm]

theorem Heart.update_of_not_moving (h : Heart) (hm : h.moving = false) :
    h.update = h := by
  simp [Heart.update, hm]

theorem Heart.update_iterate_of_not_moving (h : Heart) (hm : h.moving = false) :
    ∀ n : ℕ, Heart.update^[n] h = h := by
  intro n
  induction n with
  | zero => rfl
  | succ n ih => rw [Function.iterate_succ_apply', ih, h.update_of_not_moving hm]

@[simp] theorem Heart.draw_x (h : Heart) : h.draw.x = h.x := by
  simp only [Heart.draw]; split_ifs <;> rfl

@[simp] theorem Heart.draw_y (h : Heart) : h.draw.y = h.y := by
  simp only [Heart.draw]; split_ifs <;> rfl

@[simp] theorem Heart.draw_directionX (h : Heart) :
    h.draw.directionX = h.directionX := by
  simp only [Heart.draw]; split_ifs <;> rfl

@[simp] theorem Heart.draw_directionY (h : Heart) :
    h.draw.directionY = h.directionY := by
  simp only [Heart.draw]; split_ifs <;> rfl

@[simp] theorem Heart.draw_baseSpeed (h : Heart) :
    h.draw.baseSpeed = h.baseSpeed := by
  simp only [Heart.draw]; split_ifs <;> rfl

@[simp] theorem Heart.draw_aspectRatio (h : Heart) :
    h.draw.aspectRatio = h.aspectRatio := by
  simp only [Heart.draw]; split_ifs <;> rfl

@[simp] theorem Heart.draw_moving (h : Heart) : h.draw.moving = h.moving := by
  simp only [Heart.draw]; split_ifs <;> rfl

/-- The `x` coordinate produced by the boundary-checking block: whenever the
pre-clamp `y` is out of bounds, the last write comes from one of the two
vertical `if`s, which restore the stale pre-clamp `x`; only when `y` is in
bounds does the horizontally clamped value survive. -/
theorem clampStep_x_eq (b : BattleBox) (h : Heart) :
    (clampStep b h).x =
      if h.y > (b.y : ℝ) + (b.height : ℝ) - 1 then h.x
      else if h.y < (b.y : ℝ) + 1 then h.x
      else if h.x > (b.x : ℝ) + (b.width : ℝ) - 1 then (b.x : ℝ) + (b.width : ℝ) - 1
      else if h.x < (b.x : ℝ) + 1 then (b.x : ℝ) + 1
      else h.x := by
  simp only [clampStep, Heart.setPosition]
  split_ifs <;> rfl

/-- The `y` coordinate produced by the boundary-checking block: the vertical
clamping is always effective (the horizontal writes re-store the original
`y`, and the vertical `if`s run last). -/
theorem clampStep_y_eq (b : BattleBox) (h : Heart) :
    (clampStep b h).y =
      if h.y > (b.y : ℝ) + (b.height : ℝ) - 1 then (b.y : ℝ) + (b.height : ℝ) - 1
      else if h.y < (b.y : ℝ) + 1 then (b.y : ℝ) + 1
      else h.y := by
  simp only [clampStep, Heart.setPosition]
  split_ifs <;> rfl

@[simp] theorem clampStep_directionX (b : BattleBox) (h : Heart) :
    (clampStep b h).directionX = h.directionX := by
  simp only [clampStep, Heart.setPosition]
  split_ifs <;> rfl

@[simp] theorem clampStep_directionY (b : BattleBox) (h : Heart) :
    (clampStep b h).directionY = h.directionY := by
  simp only [clampStep, Heart.setPosition]
  split_ifs <;> rfl

@[simp] theorem clampStep_baseSpeed (b : BattleBox) (h : Heart) :
    (clampStep b h).baseSpeed = h.baseSpeed := by
  simp only [clampStep, Heart.setPosition]
  split_ifs <;> rfl

@[simp] theorem clampStep_aspectRatio (b : BattleBox) (h : Heart) :
    (clampStep b h).aspectRatio = h.aspectRatio := by
  simp only [clampStep, Heart.setPosition]
  split_ifs <;> rfl

@[simp] theorem clampStep_moving (b : BattleBox) (h : Heart) :
    (clampStep b h).moving = h.moving := by
  simp only [clampStep, Heart.setPosition]
  split_ifs <;> rfl

/-- A fully in-bounds heart is a fixed point of the boundary-checking
block: none of the four `if`s fires. -/
theorem clampStep_of_inBounds (b : BattleBox) (h : Heart)
    (h1 : (b.x : ℝ) + 1 ≤ h.x) (h2 : h.x ≤ (b.x : ℝ) + (b.width : ℝ) - 1)
    (h3 : (b.y : ℝ) + 1 ≤ h.y) (h4 : h.y ≤ (b.y : ℝ) + (b.height : ℝ) - 1) :
    clampStep b h = h := by
  simp only [clampStep, Heart.setPosition]
  rw [if_neg (not_lt.mpr h1), if_neg (not_lt.mpr h2), if_neg (not_lt.mpr h3),
    if_neg (not_lt.mpr h4)]

/-- The boundary-checking block yields a position inside the interior of the
box provided the pre-clamp position is in bounds on at least one axis. -/
theorem clampStep_bounds (b : BattleBox) (h : Heart)
    (hw : 2 ≤ b.width) (hht : 2 ≤ b.height)
    (haxis : ((b.x : ℝ) + 1 ≤ h.x ∧ h.x ≤ (b.x : ℝ) + (b.width : ℝ) - 1) ∨
             ((b.y : ℝ) + 1 ≤ h.y ∧ h.y ≤ (b.y : ℝ) + (b.height : ℝ) - 1)) :
    ((b.x : ℝ) + 1 ≤ (clampStep b h).x ∧
      (clampStep b h).x ≤ (b.x : ℝ) + (b.width : ℝ) - 1) ∧
    ((b.y : ℝ) + 1 ≤ (clampStep b h).y ∧
      (clampStep b h).y ≤ (b.y : ℝ) + (b.height : ℝ) - 1) := by
  have hw' : (2 : ℝ) ≤ (b.width : ℝ) := by exact_mod_cast hw
  have hh' : (2 : ℝ) ≤ (b.height : ℝ) := by exact_mod_cast hht
  rw [clampStep_x_eq, clampStep_y_eq]
  rcases haxis with ⟨hx1, hx2⟩ | ⟨hy1, hy2⟩ <;> split_ifs <;>
    exact ⟨⟨by linarith, by linarith⟩, by linarith, by linarith⟩

theorem Heart.update_iterate_of_moving (h : Heart) (hm : h.moving = true) :
    ∀ n : ℕ,
      (Heart.update^[n] h).x
          = h.x + n * (h.directionX * h.baseSpeed * h.aspectRatio) ∧
      (Heart.update^[n] h).y = h.y + n * (h.directionY * h.baseSpeed) ∧
      (Heart.update^[n] h).directionX = h.directionX ∧
      (Heart.update^[n] h).directionY = h.directionY ∧
      (Heart.update^[n] h).baseSpeed = h.baseSpeed ∧
      (Heart.update^[n] h).aspectRatio = h.aspectRatio ∧
      (Heart.update^[n] h).moving = true := by
  intro n
  induction n with
  | zero => simp [hm]
  | succ n ih =>
    obtain ⟨ihx, ihy, ihdx, ihdy, ihsp, ihar, ihm⟩ := ih
    rw [Function.iterate_succ_apply',
      (Heart.update^[n] h).update_of_moving ihm]
    refine ⟨?_, ?_, ihdx, ihdy, ihsp, ihar, ihm⟩
    · show (Heart.update^[n] h).x + (Heart.update^[n] h).directionX *
          (Heart.update^[n] h).baseSpeed * (Heart.update^[n] h).aspectRatio = _
      rw [ihx, ihdx, ihsp, ihar]
      push_cast
      ring
    · show (Heart.update^[n] h).y + (Heart.update^[n] h).directionY *
          (Heart.update^[n] h).baseSpeed = _
      rw [ihy, ihdy, ihsp]
      push_cast
      ring

theorem handleKey_not_motion (s : LoopState) (k : Key)
    (hk : k.isMotionKey = false) :
    (handleKey s k).heart.moving = s.heart.moving ∧
    (handleKey s k).heart.x = s.heart.x ∧
    (handleKey s k).heart.y = s.heart.y := by
  cases k <;>
    simp_all [handleKey, Key.isMotionKey, Heart.setAspectRatio,
      Heart.setSpeed]

theorem processInput_not_motion (s : LoopState) (input : List Key)
    (hk : ∀ k ∈ input, k.isMotionKey = false) :
    (processInput s input).heart.moving = s.heart.moving ∧
    (processInput s input).heart.x = s.heart.x ∧
    (processInput s input).heart.y = s.heart.y := by
  induction input generalizing s with
  | nil => exact ⟨rfl, rfl, rfl⟩
  | cons k rest ih =>
    simp only [processInput]
    obtain ⟨h1, h2, h3⟩ := handleKey_not_motion s k (hk k (by simp))
    split_ifs with hq
    · exact ⟨h1, h2, h3⟩
    · obtain ⟨g1, g2, g3⟩ :=
        ih (handleKey s k) (fun k' hk' => hk k' (by simp [hk']))
      exact ⟨g1.trans h1, g2.trans h2, g3.trans h3⟩

/-- A concrete box with origin `(0,0)` and the 40 × 16 dimensions `main`
uses, for instantiating theorems at explicit inputs. -/
def cornerBox : BattleBox := BattleBox.init 0 0 40 16

/-- A concrete heart whose position is out of bounds of `cornerBox` on both
axes simultaneously (above and to the left of the interior). -/
noncomputable def escapedHeart : Heart :=
  { x := -5, y := -5, lastDrawnX := 0, lastDrawnY := 0,
    directionX := 0, directionY := 0, baseSpeed := 0.3, aspectRatio := 2,
    moving := false }

/-- A concrete heart out of bounds of `cornerBox` horizontally only. -/
noncomputable def sideHeart : Heart :=
  { x := 100, y := 8, lastDrawnX := 0, lastDrawnY := 0,
    directionX := 0, directionY := 0, baseSpeed := 0.3, aspectRatio := 2,
    moving := false }

/-- A concrete heart out of bounds of `cornerBox` vertically only. -/
noncomputable def tallHeart : Heart :=
  { x := 8, y := 100, lastDrawnX := 0, lastDrawnY := 0,
    directionX := 0, directionY := 0, baseSpeed := 0.3, aspectRatio := 2,
    moving := false }

theorem clampStep_escapedHeart_x :
    (clampStep cornerBox escapedHeart).x = -5 := by
  rw [clampStep_x_eq]
  norm_num [cornerBox, escapedHeart, BattleBox.init]

theorem clampStep_escapedHeart_y :
    (clampStep cornerBox escapedHeart).y = 1 := by
  rw [clampStep_y_eq]
  norm_num [cornerBox, escapedHeart, BattleBox.init]

/-! ## Claim theorems -/

/-- Counterexample to C1 as stated: for the pre-clamp position `(-5, -5)`,
out of bounds of `cornerBox` (origin `(0,0)`, size 40 × 16) on both axes
simultaneously, the position after the boundary-clamp step still has
`x = -5 < box.x + 1`: the vertical clamp ran last and wrote back the stale
pre-clamp `x`, so the clamp is not independent per axis. -/
theorem clamp_both_axes_escapes :
    (clampStep cornerBox escapedHeart).x < (cornerBox.x : ℝ) + 1 := by
  rw [clampStep_escapedHeart_x]
  norm_num [cornerBox, BattleBox.init]

/-- C1 (amended): after the per-frame boundary-clamp step the entity position
satisfies `box.x+1 ≤ x ≤ box.x+width-1` and `box.y+1 ≤ y ≤ box.y+height-1`
for every pre-clamp position that is in bounds on at least one axis (the
box dimensions being at least 2, as the 40 × 16 box of `main` is). -/
theorem clamp_interior_of_one_axis (b : BattleBox) (h : Heart)
    (hw : 2 ≤ b.width) (hht : 2 ≤ b.height)
    (haxis : ((b.x : ℝ) + 1 ≤ h.x ∧ h.x ≤ (b.x : ℝ) + (b.width : ℝ) - 1) ∨
             ((b.y : ℝ) + 1 ≤ h.y ∧ h.y ≤ (b.y : ℝ) + (b.height : ℝ) - 1)) :
    (b.x : ℝ) + 1 ≤ (clampStep b h).x ∧
    (clampStep b h).x ≤ (b.x : ℝ) + (b.width : ℝ) - 1 ∧
    (b.y : ℝ) + 1 ≤ (clampStep b h).y ∧
    (clampStep b h).y ≤ (b.y : ℝ) + (b.height : ℝ) - 1 := by
  obtain ⟨⟨a1, a2⟩, a3, a4⟩ := clampStep_bounds b h hw hht haxis
  exact ⟨a1, a2, a3, a4⟩

/-- Witness for C1 (amended) at `cornerBox` and the concrete heart at
`(100, 8)`, out of bounds horizontally only. -/
theorem clamp_interior_of_one_axis_witness :
    (cornerBox.x : ℝ) + 1 ≤ (clampStep cornerBox sideHeart).x ∧
    (clampStep cornerBox sideHeart).x
        ≤ (cornerBox.x : ℝ) + (cornerBox.width : ℝ) - 1 ∧
    (cornerBox.y : ℝ) + 1 ≤ (clampStep cornerBox sideHeart).y ∧
    (clampStep cornerBox sideHeart).y
        ≤ (cornerBox.y : ℝ) + (cornerBox.height : ℝ) - 1 :=
  clamp_interior_of_one_axis cornerBox sideHeart
    (by norm_num [cornerBox, BattleBox.init])
    (by norm_num [cornerBox, BattleBox.init])
    (Or.inr ⟨by norm_num [cornerBox, sideHeart, BattleBox.init],
      by norm_num [cornerBox, sideHeart, BattleBox.init]⟩)

/-- Counterexample to C2 as stated: at the pre-clamp position `(-5, -5)`
(out of bounds of `cornerBox` on both axes) the boundary-clamp step is not
idempotent — one application leaves `x = -5`, a second moves it to `1`. -/
theorem clamp_not_idempotent_both_axes :
    (clampStep cornerBox (clampStep cornerBox escapedHeart)).x ≠
      (clampStep cornerBox escapedHeart).x := by
  have h2 : (clampStep cornerBox (clampStep cornerBox escapedHeart)).x = 1 := by
    rw [clampStep_x_eq, clampStep_escapedHeart_x, clampStep_escapedHeart_y]
    norm_num [cornerBox, BattleBox.init]
  rw [h2, clampStep_escapedHeart_x]
  norm_num

/-- C2 (amended): the boundary-clamp step is idempotent for every pre-clamp
position that is in bounds on at least one axis (box dimensions at least 2);
for positions out of bounds on both axes a second application can move the
position again, because the first left `x` unclamped. -/
theorem clamp_idempotent_of_one_axis (b : BattleBox) (h : Heart)
    (hw : 2 ≤ b.width) (hht : 2 ≤ b.height)
    (haxis : ((b.x : ℝ) + 1 ≤ h.x ∧ h.x ≤ (b.x : ℝ) + (b.width : ℝ) - 1) ∨
             ((b.y : ℝ) + 1 ≤ h.y ∧ h.y ≤ (b.y : ℝ) + (b.height : ℝ) - 1)) :
    clampStep b (clampStep b h) = clampStep b h := by
  obtain ⟨⟨a1, a2⟩, a3, a4⟩ := clampStep_bounds b h hw hht haxis
  exact clampStep_of_inBounds b (clampStep b h) a1 a2 a3 a4

/-- Witness for C2 (amended) at `cornerBox` and the concrete heart at
`(8, 100)`, out of bounds vertically only. -/
theorem clamp_idempotent_of_one_axis_witness :
    clampStep cornerBox (clampStep cornerBox tallHeart)
      = clampStep cornerBox tallHeart :=
  clamp_idempotent_of_one_axis cornerBox tallHeart
    (by norm_num [cornerBox, BattleBox.init])
    (by norm_num [cornerBox, BattleBox.init])
    (Or.inl ⟨by norm_num [cornerBox, tallHeart, BattleBox.init],
      by norm_num [cornerBox, tallHeart, BattleBox.init]⟩)

theorem pinned_left_step (b : BattleBox) (hw : 2 ≤ b.width) (hh : Heart)
    (hx : hh.x = (b.x : ℝ) + 1)
    (hy1 : (b.y : ℝ) + 1 < hh.y) (hy2 : hh.y < (b.y : ℝ) + (b.height : ℝ) - 1)
    (hdx : hh.directionX = -1) (hdy : hh.directionY = 0)
    (hm : hh.moving = true)
    (hsp : 0 ≤ hh.baseSpeed) (har : 0 ≤ hh.aspectRatio) :
    (clampStep b hh.update).x = (b.x : ℝ) + 1 ∧
    (clampStep b hh.update).y = hh.y ∧
    (clampStep b hh.update).directionX = -1 ∧
    (clampStep b hh.update).directionY = 0 ∧
    (clampStep b hh.update).moving = true ∧
    (clampStep b hh.update).baseSpeed = hh.baseSpeed ∧
    (clampStep b hh.update).aspectRatio = hh.aspectRatio := by
  have hu := hh.update_of_moving hm
  have hux : hh.update.x = (b.x : ℝ) + 1 - hh.baseSpeed * hh.aspectRatio := by
    rw [hu]
    show hh.x + hh.directionX * hh.baseSpeed * hh.aspectRatio = _
    rw [hx, hdx]
    ring
  have huy : hh.update.y = hh.y := by
    rw [hu]
    show hh.y + hh.directionY * hh.baseSpeed = _
    rw [hdy]
    ring
  have hw' : (2 : ℝ) ≤ (b.width : ℝ) := by exact_mod_cast hw
  have hprod : 0 ≤ hh.baseSpeed * hh.aspectRatio := mul_nonneg hsp har
  refine ⟨?_, ?_, by simp [hdx], by simp [hdy], by simp [hm], by simp, by simp⟩
  · rw [clampStep_x_eq, hux, huy]
    split_ifs <;> linarith
  · rw [clampStep_y_eq, huy]
    split_ifs <;> linarith

/-- C8: an entity pinned against the left boundary (`x = box.x + 1`, `y`
strictly inside the vertical interior) with direction `(-1, 0)` and
`moving = true` keeps `x` exactly equal to `box.x + 1` after every
subsequent frame (update followed by clamp), for any number of frames. -/
theorem pinned_left_boundary (b : BattleBox) (s : Heart)
    (hw : 2 ≤ b.width)
    (hx : s.x = (b.x : ℝ) + 1)
    (hy1 : (b.y : ℝ) + 1 < s.y) (hy2 : s.y < (b.y : ℝ) + (b.height : ℝ) - 1)
    (hdx : s.directionX = -1) (hdy : s.directionY = 0)
    (hm : s.moving = true)
    (hsp : 0 ≤ s.baseSpeed) (har : 0 ≤ s.aspectRatio) :
    ∀ n : ℕ, ((fun hh => clampStep b hh.update)^[n] s).x = (b.x : ℝ) + 1 := by
  have key : ∀ n : ℕ,
      ((fun hh => clampStep b hh.update)^[n] s).x = (b.x : ℝ) + 1 ∧
      ((fun hh => clampStep b hh.update)^[n] s).y = s.y ∧
      ((fun hh => clampStep b hh.update)^[n] s).directionX = -1 ∧
      ((fun hh => clampStep b hh.update)^[n] s).directionY = 0 ∧
      ((fun hh => clampStep b hh.update)^[n] s).moving = true ∧
      ((fun hh => clampStep b hh.update)^[n] s).baseSpeed = s.baseSpeed ∧
      ((fun hh => clampStep b hh.update)^[n] s).aspectRatio = s.aspectRatio := by
    intro n
    induction n with
    | zero => exact ⟨hx, rfl, hdx, hdy, hm, rfl, rfl⟩
    | succ n ih =>
      obtain ⟨ix, iy, idx, idy, im, isp, iar⟩ := ih
      rw [Function.iterate_succ_apply']
      have hstep := pinned_left_step b hw
        ((fun hh => clampStep b hh.update)^[n] s) ix
        (by rw [iy]; exact hy1) (by rw [iy]; exact hy2) idx idy im
        (by rw [isp]; exact hsp) (by rw [iar]; exact har)
      exact ⟨hstep.1, (hstep.2.1).trans iy, hstep.2.2.1, hstep.2.2.2.1,
        hstep.2.2.2.2.1, (hstep.2.2.2.2.2.1).trans isp,
        (hstep.2.2.2.2.2.2).trans iar⟩
  intro n
  exact (key n).1

/-- A concrete heart pinned against the left boundary of `cornerBox`,
moving left. -/
noncomputable def pinnedHeart : Heart :=
  { x := 1, y := 8, lastDrawnX := 1, lastDrawnY := 8,
    directionX := -1, directionY := 0, baseSpeed := 0.3, aspectRatio := 2,
    moving := true }

/-- Witness for C8 at `cornerBox`, the concrete pinned heart, and 5 frames. -/
theorem pinned_left_boundary_witness :
    ((fun hh => clampStep cornerBox hh.update)^[5] pinnedHeart).x
      = (cornerBox.x : ℝ) + 1 :=
  pinned_left_boundary cornerBox pinnedHeart
    (by norm_num [cornerBox, BattleBox.init])
    (by norm_num [cornerBox, pinnedHeart, BattleBox.init])
    (by norm_num [cornerBox, pinnedHeart, BattleBox.init])
    (by norm_num [cornerBox, pinnedHeart, BattleBox.init])
    (by norm_num [pinnedHeart]) (by norm_num [pinnedHeart])
    (by norm_num [pinnedHeart]) (by norm_num [pinnedHeart])
    (by norm_num [pinnedHeart]) 5

/-- C5: `setDirection(0,0)` leaves the whole state unchanged; for every
`(dx, dy)` with `dx ≠ 0` or `dy ≠ 0` it stores `(dx, dy)` divided by its
Euclidean length — so the stored direction has magnitude 1 — and sets
`moving` to true, leaving position, speed and aspect ratio unchanged. -/
theorem setDirection_spec (h : Heart) (dx dy : ℝ) :
    (dx = 0 ∧ dy = 0 → h.setDirection dx dy = h) ∧
    (dx ≠ 0 ∨ dy ≠ 0 →
      (h.setDirection dx dy).directionX
          = dx / Real.sqrt (dx * dx + dy * dy) ∧
      (h.setDirection dx dy).directionY
          = dy / Real.sqrt (dx * dx + dy * dy) ∧
      Real.sqrt ((h.setDirection dx dy).directionX ^ 2 +
          (h.setDirection dx dy).directionY ^ 2) = 1 ∧
      (h.setDirection dx dy).moving = true ∧
      (h.setDirection dx dy).x = h.x ∧ (h.setDirection dx dy).y = h.y ∧
      (h.setDirection dx dy).baseSpeed = h.baseSpeed ∧
      (h.setDirection dx dy).aspectRatio = h.aspectRatio) := by
  constructor
  · rintro ⟨rfl, rfl⟩
    simp [Heart.setDirection]
  · intro hnz
    have hpos : 0 < dx * dx + dy * dy := by
      rcases hnz with hdx | hdy
      · nlinarith [mul_self_pos.mpr hdx, mul_self_nonneg dy]
      · nlinarith [mul_self_pos.mpr hdy, mul_self_nonneg dx]
    have hsqrtpos : 0 < Real.sqrt (dx * dx + dy * dy) :=
      Real.sqrt_pos.mpr hpos
    have hsq : Real.sqrt (dx * dx + dy * dy) ^ 2 = dx * dx + dy * dy :=
      Real.sq_sqrt hpos.le
    have hd : h.setDirection dx dy =
        { h with directionX := dx / Real.sqrt (dx * dx + dy * dy)
                 directionY := dy / Real.sqrt (dx * dx + dy * dy)
                 moving := true } := by
      simp only [Heart.setDirection, if_pos hnz]
    rw [hd]
    refine ⟨rfl, rfl, ?_, rfl, rfl, rfl, rfl, rfl⟩
    show Real.sqrt ((dx / Real.sqrt (dx * dx + dy * dy)) ^ 2 +
      (dy / Real.sqrt (dx * dx + dy * dy)) ^ 2) = 1
    have hmag : (dx / Real.sqrt (dx * dx + dy * dy)) ^ 2 +
        (dy / Real.sqrt (dx * dx + dy * dy)) ^ 2 = 1 := by
      field_simp
      ring
    rw [hmag, Real.sqrt_one]

/-- Witness for C5 at the concrete nonzero input `(3, 4)`. -/
theorem setDirection_spec_witness :
    ((3 : ℝ) ≠ 0 ∨ (4 : ℝ) ≠ 0) ∧
    Real.sqrt (((Heart.init 0 0).setDirection 3 4).directionX ^ 2 +
      ((Heart.init 0 0).setDirection 3 4).directionY ^ 2) = 1 ∧
    ((Heart.init 0 0).setDirection 3 4).moving = true := by
  have h3 : (3 : ℝ) ≠ 0 ∨ (4 : ℝ) ≠ 0 := Or.inl (by norm_num)
  obtain ⟨-, -, hmag, hmov, -⟩ := (setDirection_spec (Heart.init 0 0) 3 4).2 h3
  exact ⟨h3, hmag, hmov⟩

/-- C6: while moving, `n` consecutive `update()` calls add exactly
`n * direction.x * speed * aspectRatio` to `x` and `n * direction.y * speed`
to `y` (the `n = 1` case is the per-call delta); while not moving,
`update()` leaves the state unchanged. -/
theorem update_linear (h : Heart) (n : ℕ) :
    (h.moving = true →
      (Heart.update^[n] h).x
          = h.x + n * (h.directionX * h.baseSpeed * h.aspectRatio) ∧
      (Heart.update^[n] h).y = h.y + n * (h.directionY * h.baseSpeed)) ∧
    (h.moving = false → Heart.update h = h) := by
  constructor
  · intro hm
    exact ⟨(h.update_iterate_of_moving hm n).1,
      (h.update_iterate_of_moving hm n).2.1⟩
  · exact h.update_of_not_moving

/-- A concrete heart moving to the right, used to instantiate theorems. -/
noncomputable def movingHeart : Heart :=
  { x := 10, y := 8, lastDrawnX := 10, lastDrawnY := 8,
    directionX := 1, directionY := 0, baseSpeed := 0.3, aspectRatio := 2,
    moving := true }

/-- Witness for C6 at the concrete moving heart and `n = 3`. -/
theorem update_linear_witness :
    movingHeart.moving = true ∧
    (Heart.update^[3] movingHeart).x = movingHeart.x +
      3 * (movingHeart.directionX * movingHeart.baseSpeed *
        movingHeart.aspectRatio) := by
  refine ⟨rfl, ?_⟩
  have hx := ((update_linear movingHeart 3).1 rfl).1
  simpa using hx

theorem Heart.update_iterate_moving (h : Heart) (n : ℕ) :
    (Heart.update^[n] h).moving = h.moving := by
  induction n with
  | zero => rfl
  | succ n ih => rw [Function.iterate_succ_apply', Heart.update_moving, ih]

theorem handleKey_space_of_moving (s : LoopState)
    (hm : s.heart.moving = true) :
    handleKey s Key.space = { s with heart := s.heart.stop } := by
  simp [handleKey, Heart.isMoving, hm]

theorem handleKey_space_of_not_moving (s : LoopState)
    (hm : s.heart.moving = false) :
    handleKey s Key.space = { s with heart := s.heart.start } := by
  simp [handleKey, Heart.isMoving, hm]

theorem runFrames_of_not_running (b : BattleBox) (t : LoopState)
    (ht : t.running = false) :
    ∀ frames : List (List Key), runFrames b t frames = t := by
  intro frames
  cases frames with
  | nil => rfl
  | cons f rest => simp [runFrames, ht]

/-- Counterexample to C3 as stated: with the heart moving right at `(10, 8)`
inside `cornerBox` and the pending input consisting of the single quit key
`q`, the iteration still runs the update step — afterwards `x = 10.6`, not
the pre-frame `10`.  The `break` only exits the input drain; the update,
clamp, redraw, flush and sleep of that iteration are not skipped. -/
theorem quit_does_not_skip_update :
    (iteration cornerBox { running := true, heart := movingHeart }
        [Key.q]).heart.x ≠ movingHeart.x := by
  have hq : iteration cornerBox { running := true, heart := movingHeart }
      [Key.q] = ⟨false, (clampStep cornerBox movingHeart.update).draw⟩ := by
    simp [iteration, processInput, handleKey, Key.isQuitKey]
  have hux : movingHeart.update.x = 10.6 := by
    rw [movingHeart.update_of_moving rfl]
    show movingHeart.x + movingHeart.directionX * movingHeart.baseSpeed *
      movingHeart.aspectRatio = _
    norm_num [movingHeart]
  have huy : movingHeart.update.y = 8 := by
    rw [movingHeart.update_of_moving rfl]
    show movingHeart.y + movingHeart.directionY * movingHeart.baseSpeed = _
    norm_num [movingHeart]
  rw [hq]
  show ((clampStep cornerBox movingHeart.update).draw).x ≠ movingHeart.x
  rw [Heart.draw_x, clampStep_x_eq, hux, huy]
  norm_num [cornerBox, movingHeart, BattleBox.init]

/-- C3 (amended): a quit key makes the input drain stop (keys after it in the
same batch are ignored) and clears `running`, but the remaining steps of the
current iteration — update, clamp and entity redraw (and the unmodelled
flush and sleep) — still execute on the heart; the loop then exits before
the next iteration, so no further frame runs. -/
theorem quit_finishes_current_iteration (b : BattleBox) (s : LoopState)
    (rest : List Key) :
    iteration b s (Key.q :: rest)
        = ⟨false, (clampStep b s.heart.update).draw⟩ ∧
    iteration b s (Key.upperQ :: rest)
        = ⟨false, (clampStep b s.heart.update).draw⟩ ∧
    (∀ frames : List (List Key),
      runFrames b (iteration b s (Key.q :: rest)) frames
          = iteration b s (Key.q :: rest)) := by
  have h1 : iteration b s (Key.q :: rest)
      = ⟨false, (clampStep b s.heart.update).draw⟩ := by
    simp [iteration, processInput, handleKey, Key.isQuitKey]
  have h2 : iteration b s (Key.upperQ :: rest)
      = ⟨false, (clampStep b s.heart.update).draw⟩ := by
    simp [iteration, processInput, handleKey, Key.isQuitKey]
  refine ⟨h1, h2, fun frames => ?_⟩
  rw [h1]
  exact runFrames_of_not_running b _ rfl frames

/-- The two-Space scenario of C9: process Space, run `n` `update()` calls,
process Space again. -/
noncomputable def spaceScenario (s : LoopState) (n : ℕ) : LoopState :=
  let s1 := handleKey s Key.space
  let s2 : LoopState := { s1 with heart := Heart.update^[n] s1.heart }
  handleKey s2 Key.space

/-- A concrete heart at rest with a nonzero stored direction (as after an
arrow key followed by a Space stop). -/
noncomputable def restingHeart : Heart :=
  { x := 10, y := 8, lastDrawnX := 10, lastDrawnY := 8,
    directionX := 1, directionY := 0, baseSpeed := 0.3, aspectRatio := 2,
    moving := false }

/-- Counterexample to C9 as stated: starting from rest with stored direction
`(1, 0)` (speed 0.3, aspect ratio 2), the scenario Space — one `update()` —
Space moves the entity: its `x` afterwards is `10.6`, not the original `10`,
because the first Space started the motion so the intervening `update()` did
move the entity. -/
theorem space_toggle_moves_from_rest :
    (spaceScenario { running := true, heart := restingHeart } 1).heart.x
      ≠ restingHeart.x := by
  have h1 : handleKey { running := true, heart := restingHeart } Key.space
      = { running := true, heart := restingHeart.start } :=
    handleKey_space_of_not_moving _ rfl
  have hmv : (Heart.update^[1] restingHeart.start).moving = true := by
    rw [Heart.update_iterate_moving]
    rfl
  have hux : restingHeart.start.update.x = 10.6 := by
    rw [Heart.update_of_moving _ rfl]
    show restingHeart.start.x + restingHeart.start.directionX *
      restingHeart.start.baseSpeed * restingHeart.start.aspectRatio = _
    norm_num [restingHeart, Heart.start]
  simp only [spaceScenario]
  rw [h1]
  show (handleKey ⟨true, Heart.update^[1] restingHeart.start⟩
    Key.space).heart.x ≠ restingHeart.x
  rw [handleKey_space_of_moving _ hmv]
  show ((Heart.update^[1] restingHeart.start).stop).x ≠ restingHeart.x
  have hsx : ((Heart.update^[1] restingHeart.start).stop).x
      = (Heart.update^[1] restingHeart.start).x := rfl
  rw [hsx, Function.iterate_one, hux]
  norm_num [restingHeart]

/-- C9 (amended): processing Space twice always returns the moving flag to
its original value; and when the entity was moving before the first Space —
so that it is stopped between the two toggles — any number of `update()`
calls between them does not move it, so its position is unchanged.  (From
rest with a nonzero stored direction, the intervening updates do move it.) -/
theorem space_toggle_pair (s : LoopState) (n : ℕ) :
    (spaceScenario s n).heart.moving = s.heart.moving ∧
    (s.heart.moving = true →
      (spaceScenario s n).heart.x = s.heart.x ∧
      (spaceScenario s n).heart.y = s.heart.y) := by
  cases hm : s.heart.moving
  · -- originally at rest: Space starts, updates keep it moving, Space stops
    have h1 := handleKey_space_of_not_moving s hm
    have hmv : (Heart.update^[n] (s.heart.start)).moving = true := by
      rw [Heart.update_iterate_moving]
      rfl
    constructor
    · simp only [spaceScenario]
      rw [h1]
      show (handleKey ⟨s.running, Heart.update^[n] s.heart.start⟩
        Key.space).heart.moving = false
      rw [handleKey_space_of_moving _ hmv]
      rfl
    · intro hcon
      exact absurd hcon (by decide)
  · -- originally moving: Space stops, updates are no-ops, Space restarts
    have h1 := handleKey_space_of_moving s hm
    have hstop : (s.heart.stop).moving = false := rfl
    have hid : Heart.update^[n] (s.heart.stop) = s.heart.stop :=
      Heart.update_iterate_of_not_moving _ hstop n
    refine ⟨?_, fun _ => ⟨?_, ?_⟩⟩
    · simp only [spaceScenario]
      rw [h1]
      show (handleKey ⟨s.running, Heart.update^[n] s.heart.stop⟩
        Key.space).heart.moving = true
      rw [handleKey_space_of_not_moving _ (by rw [hid]; exact hstop)]
      rfl
    · simp only [spaceScenario]
      rw [h1]
      show (handleKey ⟨s.running, Heart.update^[n] s.heart.stop⟩
        Key.space).heart.x = s.heart.x
      rw [handleKey_space_of_not_moving _ (by rw [hid]; exact hstop)]
      show ((Heart.update^[n] s.heart.stop).start).x = s.heart.x
      rw [hid]
      rfl
    · simp only [spaceScenario]
      rw [h1]
      show (handleKey ⟨s.running, Heart.update^[n] s.heart.stop⟩
        Key.space).heart.y = s.heart.y
      rw [handleKey_space_of_not_moving _ (by rw [hid]; exact hstop)]
      show ((Heart.update^[n] s.heart.stop).start).y = s.heart.y
      rw [hid]
      rfl

/-- Witness for C9 (amended) at a concrete moving heart and two intervening
`update()` calls. -/
theorem space_toggle_pair_witness :
    movingHeart.moving = true ∧
    (spaceScenario { running := true, heart := movingHeart } 2).heart.moving
        = movingHeart.moving ∧
    (spaceScenario { running := true, heart := movingHeart } 2).heart.x
        = movingHeart.x := by
  have h := space_toggle_pair { running := true, heart := movingHeart } 2
  exact ⟨rfl, h.1, (h.2 rfl).1⟩

/-- The range invariant the loop controller maintains for the two adjustable
parameters: aspect ratio in `[1, 5]` and base speed in `[0.05, 1]`. -/
def paramInv (h : Heart) : Prop :=
  1 ≤ h.aspectRatio ∧ h.aspectRatio ≤ 5 ∧
  0.05 ≤ h.baseSpeed ∧ h.baseSpeed ≤ 1

theorem paramInv_handleKey (s : LoopState) (k : Key)
    (hinv : paramInv s.heart) : paramInv (handleKey s k).heart := by
  obtain ⟨h1, h2, h3, h4⟩ := hinv
  cases k <;>
    simp only [handleKey, Heart.setAspectRatio, Heart.setSpeed, Heart.stop,
      Heart.start, Heart.isMoving, Heart.setDirection, paramInv] <;>
    (try split_ifs) <;>
    exact ⟨by linarith, by linarith, by linarith, by linarith⟩

theorem paramInv_processInput (s : LoopState) (input : List Key)
    (hinv : paramInv s.heart) : paramInv (processInput s input).heart := by
  induction input generalizing s with
  | nil => exact hinv
  | cons k rest ih =>
    simp only [processInput]
    split_ifs
    · exact paramInv_handleKey s k hinv
    · exact ih (handleKey s k) (paramInv_handleKey s k hinv)

theorem paramInv_iteration (b : BattleBox) (s : LoopState)
    (input : List Key) (hinv : paramInv s.heart) :
    paramInv (iteration b s input).heart := by
  have h1 := paramInv_processInput s input hinv
  unfold paramInv at h1 ⊢
  simpa [iteration] using h1

theorem paramInv_runFrames (b : BattleBox) (s : LoopState)
    (frames : List (List Key)) (hinv : paramInv s.heart) :
    paramInv (runFrames b s frames).heart := by
  induction frames generalizing s with
  | nil => exact hinv
  | cons f rest ih =>
    simp only [runFrames]
    split_ifs
    · exact ih _ (paramInv_iteration b s f hinv)
    · exact hinv

theorem handleKey_param_motion (s : LoopState) (k : Key)
    (hk : k.isParamKey = true) :
    (handleKey s k).heart.directionX = s.heart.directionX ∧
    (handleKey s k).heart.directionY = s.heart.directionY ∧
    (handleKey s k).heart.x = s.heart.x ∧
    (handleKey s k).heart.y = s.heart.y ∧
    (handleKey s k).heart.moving = s.heart.moving := by
  cases k <;>
    simp_all [handleKey, Key.isParamKey, Heart.setAspectRatio, Heart.setSpeed]

theorem handleKey_plus_saturates (s : LoopState)
    (hgt : s.heart.aspectRatio + 0.2 > 5) :
    (handleKey s Key.plus).heart.aspectRatio = 5 ∧
    (handleKey s Key.eq).heart.aspectRatio = 5 := by
  constructor <;>
  · simp only [handleKey, Heart.setAspectRatio]
    rw [if_pos hgt]

theorem handleKey_minus_saturates (s : LoopState)
    (hlt : s.heart.aspectRatio - 0.2 < 1) :
    (handleKey s Key.minus).heart.aspectRatio = 1 ∧
    (handleKey s Key.underscore).heart.aspectRatio = 1 := by
  constructor <;>
  · simp only [handleKey, Heart.setAspectRatio]
    rw [if_pos hlt]

theorem handleKey_lbrack_saturates (s : LoopState)
    (hlt : s.heart.baseSpeed - 0.05 < 0.05) :
    (handleKey s Key.lbrack).heart.baseSpeed = 0.05 := by
  simp only [handleKey, Heart.setSpeed]
  rw [if_pos hlt]

theorem handleKey_rbrack_saturates (s : LoopState)
    (hgt : s.heart.baseSpeed + 0.05 > 1) :
    (handleKey s Key.rbrack).heart.baseSpeed = 1 := by
  simp only [handleKey, Heart.setSpeed]
  rw [if_pos hgt]

theorem paramInv_initialHeart (maxX maxY : ℤ) :
    paramInv (initialHeart maxX maxY) := by
  unfold paramInv initialHeart Heart.init
  norm_num

/-- C7: starting from the initial entity state (aspect ratio 2, speed 0.3),
over every sequence of frames and key events processed by the loop
controller the stored aspect ratio stays within `[1, 5]` and the stored
speed within `[0.05, 1]`; a `+`/`=`, `-`/`_`, `[` or `]` step that would
cross a bound stores exactly the nearest bound; and these keys never change
the direction, position, or moving flag. -/
theorem aspect_speed_bounds (maxX maxY : ℤ) (frames : List (List Key)) :
    (1 ≤ (runFrames (initialBox maxX maxY) (initialState maxX maxY)
        frames).heart.aspectRatio ∧
      (runFrames (initialBox maxX maxY) (initialState maxX maxY)
        frames).heart.aspectRatio ≤ 5 ∧
      0.05 ≤ (runFrames (initialBox maxX maxY) (initialState maxX maxY)
        frames).heart.baseSpeed ∧
      (runFrames (initialBox maxX maxY) (initialState maxX maxY)
        frames).heart.baseSpeed ≤ 1) ∧
    (∀ s : LoopState, ∀ k : Key, k.isParamKey = true →
      (handleKey s k).heart.directionX = s.heart.directionX ∧
      (handleKey s k).heart.directionY = s.heart.directionY ∧
      (handleKey s k).heart.x = s.heart.x ∧
      (handleKey s k).heart.y = s.heart.y ∧
      (handleKey s k).heart.moving = s.heart.moving) ∧
    (∀ s : LoopState,
      (s.heart.aspectRatio + 0.2 > 5 →
        (handleKey s Key.plus).heart.aspectRatio = 5 ∧
        (handleKey s Key.eq).heart.aspectRatio = 5) ∧
      (s.heart.aspectRatio - 0.2 < 1 →
        (handleKey s Key.minus).heart.aspectRatio = 1 ∧
        (handleKey s Key.underscore).heart.aspectRatio = 1) ∧
      (s.heart.baseSpeed - 0.05 < 0.05 →
        (handleKey s Key.lbrack).heart.baseSpeed = 0.05) ∧
      (s.heart.baseSpeed + 0.05 > 1 →
        (handleKey s Key.rbrack).heart.baseSpeed = 1)) := by
  refine ⟨?_, handleKey_param_motion, fun s =>
    ⟨handleKey_plus_saturates s, handleKey_minus_saturates s,
      handleKey_lbrack_saturates s, handleKey_rbrack_saturates s⟩⟩
  exact paramInv_runFrames (initialBox maxX maxY) (initialState maxX maxY)
    frames (paramInv_initialHeart maxX maxY)

/-- A concrete loop state whose parameters sit one step below their upper
bounds, so that one more `+` or `]` would cross them. -/
noncomputable def nearMaxState : LoopState :=
  ⟨true,
    { x := 10, y := 8, lastDrawnX := 10, lastDrawnY := 8,
      directionX := 0, directionY := 1, baseSpeed := 0.98,
      aspectRatio := 4.9, moving := true }⟩

/-- Witness for C7: terminal size 80 × 24 with two concrete frames of input,
plus the saturation and motion-preservation facts at the concrete
near-maximum state. -/
theorem aspect_speed_bounds_witness :
    (1 ≤ (runFrames (initialBox 80 24) (initialState 80 24)
        [[Key.rbrack], [Key.up]]).heart.aspectRatio) ∧
    Key.isParamKey Key.lbrack = true ∧
    (handleKey nearMaxState Key.lbrack).heart.moving
        = nearMaxState.heart.moving ∧
    nearMaxState.heart.aspectRatio + 0.2 > 5 ∧
    (handleKey nearMaxState Key.plus).heart.aspectRatio = 5 ∧
    nearMaxState.heart.baseSpeed + 0.05 > 1 ∧
    (handleKey nearMaxState Key.rbrack).heart.baseSpeed = 1 := by
  have h := aspect_speed_bounds 80 24 [[Key.rbrack], [Key.up]]
  have hgt : nearMaxState.heart.aspectRatio + 0.2 > 5 := by
    show (4.9 : ℝ) + 0.2 > 5
    norm_num
  have hsp : nearMaxState.heart.baseSpeed + 0.05 > 1 := by
    show (0.98 : ℝ) + 0.05 > 1
    norm_num
  exact ⟨h.1.1, rfl, (h.2.1 nearMaxState Key.lbrack rfl).2.2.2.2, hgt,
    ((h.2.2 nearMaxState).1 hgt).1, hsp, (h.2.2 nearMaxState).2.2.2 hsp⟩

theorem mem_drawCells (b : BattleBox) (r c : ℤ) :
    (r, c) ∈ b.drawCells ↔
      ((r = b.y ∨ r = b.y + b.height) ∧
        b.x - 1 ≤ c ∧ c ≤ b.x + b.width + 1) ∨
      (b.y ≤ r ∧ r ≤ b.y + b.height ∧
        (c = b.x ∨ c = b.x + b.width ∨ c = b.x - 1 ∨
          c = b.x + 1 + b.width)) := by
  unfold BattleBox.drawCells
  simp only [List.mem_append, List.mem_flatMap, List.mem_cons,
    List.not_mem_nil, or_false, Prod.mk.injEq, mem_intRange]
  constructor
  · rintro (⟨i, hi, h⟩ | ⟨i, hi, h⟩) <;> omega
  · rintro (⟨hr, hc1, hc2⟩ | ⟨hr1, hr2, hc⟩)
    · exact Or.inl ⟨c - b.x, by omega, by omega⟩
    · exact Or.inr ⟨r - b.y, by omega, by omega⟩

/-- Counterexample to C4 as stated: for the 40 × 16 box of `main` (placed at
the origin), the top border row written by `draw()` spans 43 distinct
columns — `width + 3`, from `x - 1` through `x + width + 1` — not the
claimed `width + 2 = 42`. -/
theorem box_draw_top_row_not_claimed_span :
    (((BattleBox.draw cornerBox).2.filter
        (fun cell => cell.1 = cornerBox.y)).map Prod.snd).dedup.length
      ≠ 42 := by
  decide

/-- C4 (amended): when `draw()` runs with the dirty flag set, the top and
bottom border rows each span exactly `width + 3` columns (`x - 1` through
`x + width + 1`: one column of padding beyond the side borders on each
side), the left and right borders are two columns each side (`x - 1`, `x`
and `x + width`, `x + width + 1`) spanning the rows `y` through
`y + height`, and afterwards the dirty flag is cleared; `draw()` with the
dirty flag clear writes nothing and leaves the box unchanged. -/
theorem box_draw_spec (b : BattleBox) (hw : 0 < b.width) (hht : 0 < b.height) :
    (b.needsRedraw = false → b.draw = (b, [])) ∧
    (b.needsRedraw = true →
      (b.draw).1.needsRedraw = false ∧
      (∀ c : ℤ,
        (b.y, c) ∈ (b.draw).2 ↔ b.x - 1 ≤ c ∧ c ≤ b.x + b.width + 1) ∧
      (∀ c : ℤ,
        (b.y + b.height, c) ∈ (b.draw).2 ↔
          b.x - 1 ≤ c ∧ c ≤ b.x + b.width + 1) ∧
      (Finset.Icc (b.x - 1) (b.x + b.width + 1)).card = (b.width + 3).toNat ∧
      (∀ r : ℤ, b.y ≤ r → r ≤ b.y + b.height →
        (r, b.x - 1) ∈ (b.draw).2 ∧ (r, b.x) ∈ (b.draw).2 ∧
        (r, b.x + b.width) ∈ (b.draw).2 ∧
        (r, b.x + b.width + 1) ∈ (b.draw).2)) := by
  constructor
  · intro hclean
    simp [BattleBox.draw, hclean]
  · intro hdirty
    have hd : b.draw = ({ b with needsRedraw := false }, b.drawCells) := by
      simp [BattleBox.draw, hdirty]
    rw [hd]
    dsimp only
    refine ⟨rfl, ?_, ?_, ?_, ?_⟩
    · intro c
      rw [mem_drawCells]
      omega
    · intro c
      rw [mem_drawCells]
      omega
    · rw [Int.card_Icc]
      omega
    · intro r hr1 hr2
      refine ⟨?_, ?_, ?_, ?_⟩ <;> (rw [mem_drawCells]; omega)

/-- Witness for C4 (amended) at the concrete 40 × 16 box: the dirty draw
clears the flag and writes the far top-right padding cell `(0, 41)`
(= `(y, x + width + 1)`). -/
theorem box_draw_spec_witness :
    cornerBox.needsRedraw = true ∧
    (cornerBox.draw).1.needsRedraw = false ∧
    (cornerBox.y, (41 : ℤ)) ∈ (cornerBox.draw).2 := by
  have h := (box_draw_spec cornerBox (by decide) (by decide)).2 rfl
  exact ⟨rfl, h.1, (h.2.1 41).mpr (by decide)⟩

/-- C10: at program start the heart has `moving = false`, zero direction,
speed `0.3` and aspect ratio `2`; processing any input sequence containing
no arrow or Space key leaves it at the starting center cell and not moving,
and `update()` leaves a non-moving heart entirely unchanged (for any number
of calls). -/
theorem initial_state_at_rest (maxX maxY : ℤ) :
    (initialHeart maxX maxY).moving = false ∧
    (initialHeart maxX maxY).directionX = 0 ∧
    (initialHeart maxX maxY).directionY = 0 ∧
    (initialHeart maxX maxY).baseSpeed = 0.3 ∧
    (initialHeart maxX maxY).aspectRatio = 2 ∧
    (initialHeart maxX maxY).x = ((maxX / 2 : ℤ) : ℝ) ∧
    (initialHeart maxX maxY).y = ((maxY / 2 : ℤ) : ℝ) ∧
    (∀ input : List Key, (∀ k ∈ input, k.isMotionKey = false) →
      (processInput (initialState maxX maxY) input).heart.moving = false ∧
      (processInput (initialState maxX maxY) input).heart.x
          = ((maxX / 2 : ℤ) : ℝ) ∧
      (processInput (initialState maxX maxY) input).heart.y
          = ((maxY / 2 : ℤ) : ℝ)) ∧
    (∀ h : Heart, h.moving = false → ∀ n : ℕ, Heart.update^[n] h = h) := by
  refine ⟨rfl, rfl, rfl, rfl, rfl, rfl, rfl, ?_, Heart.update_iterate_of_not_moving⟩
  intro input hk
  obtain ⟨g1, g2, g3⟩ := processInput_not_motion (initialState maxX maxY) input hk
  exact ⟨g1, g2, g3⟩

/-- Witness for C10: terminal size 80 × 24 and the motion-free input
sequence `[+, other]`. -/
theorem initial_state_at_rest_witness :
    (∀ k ∈ [Key.plus, Key.other], k.isMotionKey = false) ∧
    (processInput (initialState 80 24) [Key.plus, Key.other]).heart.moving
        = false ∧
    (processInput (initialState 80 24) [Key.plus, Key.other]).heart.x
        = ((80 / 2 : ℤ) : ℝ) := by
  have hk : ∀ k ∈ [Key.plus, Key.other], k.isMotionKey = false := by decide
  obtain ⟨h1, h2, -⟩ := (initial_state_at_rest 80 24).2.2.2.2.2.2.2.1
    [Key.plus, Key.other] hk
  exact ⟨hk, h1, h2⟩

end GameMovement
